import Mathlib

/-!
Shallow embedding of the weblink-ws-server signaling server
(src/unnamed/part_001 together with the configuration defaults of
src/src/var.ts).  Sessions are modelled by numeric identifiers; the
readyState of the underlying sockets during one handler run is an input
function.  Handlers return the updated state together with the ordered
list of observable actions (socket sends and socket closes).  JavaScript
Map objects are modelled as insertion-ordered association lists; under
the server's usage keys are unique, so removing every matching entry in
adel coincides with Map.delete.
-/

namespace Weblink

/-- Client descriptor (TransferClient in src/types): identity and metadata
advertised by the joining peer; resume is the optional reconnection flag. -/
structure TransferClient where
  clientId : String
  name : String
  avatar : Option String
  createdAt : Nat
  resume : Option Bool
deriving DecidableEq, Repr

/-- Targeted signal payload (ClientSignal in src/types); payload stands for
the arbitrary extra fields the server forwards opaquely. -/
structure ClientSignal where
  sessionId : String
  clientId : String
  targetClientId : String
  payload : String
deriving DecidableEq, Repr

/-- Shape of the data field of an inbound raw signal. -/
inductive SignalData where
  | client (c : TransferClient)
  | target (s : ClientSignal)
  | empty
deriving DecidableEq, Repr

/-- Inbound envelope as parsed by the server's message callback. -/
structure RawSignal where
  type : String
  data : SignalData
deriving DecidableEq, Repr

/-- Outbound envelope written to a session or stored in a message cache. -/
inductive Envelope where
  | connected (pwd : Option String)
  | join (c : TransferClient)
  | leave (c : TransferClient)
  | message (s : ClientSignal)
  | ping
deriving DecidableEq, Repr

/-- Observable effect of a handler: a send on a session or a socket close. -/
inductive Action where
  | send (sid : Nat) (e : Envelope)
  | close (sid : Nat)
deriving DecidableEq, Repr

/-- Map.get on an insertion-ordered association list. -/
def aget {κ α : Type} [DecidableEq κ] (m : List (κ × α)) (k : κ) : Option α :=
  match m with
  | [] => none
  | (k0, v) :: rest => if k0 = k then some v else aget rest k

/-- Map.set: replace in place when the key is present, append otherwise. -/
def aset {κ α : Type} [DecidableEq κ] (m : List (κ × α)) (k : κ) (v : α) :
    List (κ × α) :=
  match m with
  | [] => [(k, v)]
  | (k0, v0) :: rest => if k0 = k then (k0, v) :: rest else (k0, v0) :: aset rest k v

/-- Map.delete; identical to deleting the first occurrence since keys are
unique in every map the server builds. -/
def adel {κ α : Type} [DecidableEq κ] (m : List (κ × α)) (k : κ) : List (κ × α) :=
  match m with
  | [] => []
  | (k0, v0) :: rest => if k0 = k then adel rest k else (k0, v0) :: adel rest k

/-- Per-client record held by a room (ClientData in part_001). -/
structure ClientData where
  client : TransferClient
  session : Nat
  lastPongTime : Nat
  disconnectTimeout : Option Unit
  messageCache : List Envelope
deriving DecidableEq, Repr

/-- Room state: client registry plus the password hash fixed at creation. -/
structure Room where
  clients : List (String × ClientData)
  passwordHash : Option String
deriving DecidableEq, Repr

/-- Configuration defaults from src/src/var.ts. -/
def HEARTBEAT_INTERVAL : Nat := 30000

/-- Default pong deadline from src/src/var.ts. -/
def PONG_TIMEOUT : Nat := 60000

/-- Default grace period from src/src/var.ts. -/
def DISCONNECT_TIMEOUT : Nat := 90000

/-- Roster bootstrap of handleJoin: one join envelope per existing record,
written to the joining session in registry order. -/
def rosterActs (ws : Nat) (cs : List (String × ClientData)) : List Action :=
  cs.map (fun p => Action.send ws (Envelope.join p.2.client))

/-- Second forEach of handleJoin: skip records bound to the joining socket,
send the join envelope when the member's session is open, cache it
otherwise.  Returns the updated registry and the sends in order. -/
def joinFanout (isOpen : Nat → Bool) (client : TransferClient) (ws : Nat) :
    List (String × ClientData) → List (String × ClientData) × List Action
  | [] => ([], [])
  | (k, cd) :: rest =>
    let r := joinFanout isOpen client ws rest
    if cd.session = ws then ((k, cd) :: r.1, r.2)
    else if isOpen cd.session then
      ((k, cd) :: r.1, Action.send cd.session (Envelope.join client) :: r.2)
    else
      ((k, { cd with messageCache := cd.messageCache ++ [Envelope.join client] }) :: r.1, r.2)

/-- handleJoin of part_001.  An existing record (any resume value) is
rebound: timer cleared, session replaced, lastPongTime refreshed, cache
flushed to the new socket in FIFO order.  Otherwise the roster is sent to
the joiner, the join is fanned out, and a fresh record installed. -/
def handleJoin (isOpen : Nat → Bool) (now : Nat) (room : Room)
    (client : TransferClient) (ws : Nat) : Room × List Action :=
  match aget room.clients client.clientId with
  | some ex =>
      ({ room with clients := (aset room.clients client.clientId
          { ex with
            session := ws, lastPongTime := now
            disconnectTimeout := none, messageCache := [] }) },
        ex.messageCache.map (fun e => Action.send ws e))
  | none =>
      let fo := joinFanout isOpen client ws room.clients
      ({ room with clients := (aset fo.1 client.clientId
          { client := client, session := ws, lastPongTime := now
            disconnectTimeout := none, messageCache := [] }) },
        rosterActs ws room.clients ++ fo.2)

/-- Fan-out of handleLeave over the remaining records: send the leave
envelope to open sessions, cache it for the rest. -/
def leaveFanout (isOpen : Nat → Bool) (client : TransferClient) :
    List (String × ClientData) → List (String × ClientData) × List Action
  | [] => ([], [])
  | (k, cd) :: rest =>
    let r := leaveFanout isOpen client rest
    if isOpen cd.session then
      ((k, cd) :: r.1, Action.send cd.session (Envelope.leave client) :: r.2)
    else
      ((k, { cd with messageCache := cd.messageCache ++ [Envelope.leave client] }) :: r.1, r.2)

/-- handleLeave of part_001: look up the record named by the signal's
clientId; cancel its timer and delete it; fan the leave envelope out to the
remaining records; delete the room from the map when it became empty;
close the invoking socket. -/
def handleLeave (isOpen : Nat → Bool) (rooms : List (String × Room))
    (roomId : String) (room : Room) (client : TransferClient) (ws : Nat) :
    List (String × Room) × List Action :=
  match aget room.clients client.clientId with
  | none => (rooms, [])
  | some _ =>
      let remaining := adel room.clients client.clientId
      let fo := leaveFanout isOpen client remaining
      let rooms2 :=
        if fo.1.isEmpty then adel rooms roomId
        else aset rooms roomId { room with clients := fo.1 }
      (rooms2, fo.2 ++ [Action.close ws])

/-- handleMessage of part_001: drop when the sender has no record; forward
the envelope to the target's session when a target record exists, its
session is not the sender's socket, and that session is open; otherwise do
nothing (no caching occurs here). -/
def handleMessage (isOpen : Nat → Bool) (room : Room) (data : ClientSignal)
    (ws : Nat) (wsClientId : Option String) : List Action :=
  let target := aget room.clients data.targetClientId
  match aget room.clients (wsClientId.getD "") with
  | none => []
  | some _ =>
    match target with
    | some t =>
        if t.session = ws then []
        else if isOpen t.session then [Action.send t.session (Envelope.message data)]
        else []
    | none => []

/-- Per-record contribution of one heartbeat sweep. -/
def sweepOne (isOpen : Nat → Bool) (now pongTimeout : Nat) (cd : ClientData) :
    List Action :=
  if isOpen cd.session then
    if now - cd.lastPongTime > pongTimeout then [Action.close cd.session]
    else [Action.send cd.session Envelope.ping]
  else []

/-- Heartbeat sweep over one room's registry. -/
def sweepClients (isOpen : Nat → Bool) (now pongTimeout : Nat) :
    List (String × ClientData) → List Action
  | [] => []
  | (_, cd) :: rest =>
      sweepOne isOpen now pongTimeout cd ++ sweepClients isOpen now pongTimeout rest

/-- Heartbeat sweep over every room (body of startHeartbeat's interval). -/
def heartbeatSweep (isOpen : Nat → Bool) (now pongTimeout : Nat) :
    List (String × Room) → List Action
  | [] => []
  | (_, room) :: rest =>
      sweepClients isOpen now pongTimeout room.clients ++
        heartbeatSweep isOpen now pongTimeout rest

/-- Global server state: the room map and each socket's bound clientId
(ws.data.clientId; absent means null). -/
structure ServerState where
  rooms : List (String × Room)
  binding : List (Nat × String)
deriving DecidableEq, Repr

/-- External events driving the server.  readyState snapshots and clock
readings are inputs of the event. -/
inductive Event where
  | wsOpen (ws : Nat) (roomId : String) (pwd : String)
  | wsMessage (isOpen : Nat → Bool) (now : Nat) (ws : Nat) (roomId : String) (sg : RawSignal)
  | wsClose (ws : Nat) (roomId : String)
  | timerFire (isOpen : Nat → Bool) (roomId : String) (clientId : String)
  | heartbeat (isOpen : Nat → Bool) (now : Nat) (pongTimeout : Nat)

/-- The open callback: create the room lazily (password hash from the
first connector, empty string meaning null) and echo the stored hash. -/
def stepOpen (st : ServerState) (ws : Nat) (roomId pwd : String) :
    ServerState × List Action :=
  match aget st.rooms roomId with
  | some room => (st, [Action.send ws (Envelope.connected room.passwordHash)])
  | none =>
      let room : Room := { clients := [], passwordHash := if pwd = "" then none else some pwd }
      ({ st with rooms := aset st.rooms roomId room },
        [Action.send ws (Envelope.connected room.passwordHash)])

/-- The message callback: room lookup, pong fast path, then the dispatch
switch on the signal type; unknown types (including an inbound ping) fall
through to the logging default and change nothing. -/
def stepSignal (st : ServerState) (isOpen : Nat → Bool) (now : Nat) (ws : Nat)
    (roomId : String) (sg : RawSignal) : ServerState × List Action :=
  match aget st.rooms roomId with
  | none => (st, [])
  | some room =>
    if sg.type = "pong" then
      match aget room.clients ((aget st.binding ws).getD "") with
      | none => (st, [])
      | some cd =>
          ({ st with rooms := (aset st.rooms roomId
              { room with clients := (aset room.clients ((aget st.binding ws).getD "")
                  { cd with lastPongTime := now }) }) }, [])
    else if sg.type = "join" then
      match sg.data with
      | SignalData.client c =>
          let r := handleJoin isOpen now room c ws
          ({ rooms := aset st.rooms roomId r.1,
             binding := aset st.binding ws c.clientId }, r.2)
      | _ => (st, [])
    else if sg.type = "message" then
      match sg.data with
      | SignalData.target d => (st, handleMessage isOpen room d ws (aget st.binding ws))
      | _ => (st, [])
    else if sg.type = "leave" then
      match sg.data with
      | SignalData.client c =>
          let r := handleLeave isOpen st.rooms roomId room c ws
          ({ st with rooms := r.1 }, r.2)
      | _ => (st, [])
    else (st, [])

/-- The close callback (handleClose): mark the socket's record as waiting
in the grace period by arming its disconnect timer. -/
def stepClose (st : ServerState) (ws : Nat) (roomId : String) :
    ServerState × List Action :=
  match aget st.rooms roomId with
  | none => (st, [])
  | some room =>
    match aget room.clients ((aget st.binding ws).getD "") with
    | none => (st, [])
    | some cd =>
        ({ st with rooms := (aset st.rooms roomId
            { room with clients := (aset room.clients ((aget st.binding ws).getD "")
                { cd with disconnectTimeout := some () }) }) }, [])

/-- Expiry of a grace-period timer: when the record still exists and its
timer was not cancelled, run handleLeave on the record's stored descriptor
and current session (what the scheduled closure reads at fire time). -/
def stepTimer (st : ServerState) (isOpen : Nat → Bool) (roomId clientId : String) :
    ServerState × List Action :=
  match aget st.rooms roomId with
  | none => (st, [])
  | some room =>
    match aget room.clients clientId with
    | none => (st, [])
    | some cd =>
      if cd.disconnectTimeout.isSome then
        let r := handleLeave isOpen st.rooms roomId room cd.client cd.session
        ({ st with rooms := r.1 }, r.2)
      else (st, [])

/-- One step of the server. -/
def step (st : ServerState) (e : Event) : ServerState × List Action :=
  match e with
  | Event.wsOpen ws roomId pwd => stepOpen st ws roomId pwd
  | Event.wsMessage isOpen now ws roomId sg => stepSignal st isOpen now ws roomId sg
  | Event.wsClose ws roomId => stepClose st ws roomId
  | Event.timerFire isOpen roomId clientId => stepTimer st isOpen roomId clientId
  | Event.heartbeat isOpen now pongTimeout =>
      (st, heartbeatSweep isOpen now pongTimeout st.rooms)

/-- Server state at process start: no rooms, no bound sockets. -/
def initState : ServerState := { rooms := [], binding := [] }

/-- States reachable from process start through any event sequence. -/
inductive Reachable : ServerState → Prop where
  | init : Reachable initState
  | next (st : ServerState) (e : Event) : Reachable st → Reachable (step st e).1

/-- Envelopes an action list writes to one session, in order. -/
def sentTo (sid : Nat) (acts : List Action) : List Envelope :=
  acts.filterMap (fun a =>
    match a with
    | Action.send s e => if s = sid then some e else none
    | Action.close _ => none)

end Weblink

namespace Weblink

theorem aget_aset {κ α : Type} [DecidableEq κ] (m : List (κ × α)) (k k' : κ) (v : α) :
    aget (aset m k v) k' = if k = k' then some v else aget m k' := by
  induction m with
  | nil => by_cases h : k = k' <;> simp [aset, aget, h]
  | cons p rest ih =>
    obtain ⟨k0, v0⟩ := p
    by_cases h0 : k0 = k
    · subst h0
      by_cases h1 : k0 = k' <;> simp [aset, aget, h1]
    · by_cases h1 : k0 = k' <;> by_cases h2 : k = k' <;>
        simp_all [aset, aget]

theorem aget_adel {κ α : Type} [DecidableEq κ] (m : List (κ × α)) (k k' : κ) :
    aget (adel m k) k' = if k = k' then none else aget m k' := by
  induction m with
  | nil => by_cases h : k = k' <;> simp [adel, aget, h]
  | cons p rest ih =>
    obtain ⟨k0, v0⟩ := p
    by_cases h0 : k0 = k
    · subst h0
      by_cases h1 : k0 = k' <;> simp_all [adel, aget]
    · by_cases h1 : k0 = k' <;> by_cases h2 : k = k' <;>
        simp_all [adel, aget]

theorem aget_mem {κ α : Type} [DecidableEq κ] {m : List (κ × α)} {k : κ} {v : α}
    (h : aget m k = some v) : (k, v) ∈ m := by
  induction m with
  | nil => simp [aget] at h
  | cons p rest ih =>
    obtain ⟨k0, v0⟩ := p
    by_cases h0 : k0 = k
    · subst h0
      simp [aget] at h
      simp [h]
    · simp [aget, h0] at h
      exact List.mem_cons_of_mem _ (ih h)

theorem aget_none_not_mem {κ α : Type} [DecidableEq κ] {m : List (κ × α)} {k : κ}
    (h : aget m k = none) (v : α) : (k, v) ∉ m := by
  induction m with
  | nil => simp
  | cons p rest ih =>
    obtain ⟨k0, v0⟩ := p
    by_cases h0 : k0 = k
    · subst h0; simp [aget] at h
    · simp [aget, h0] at h
      simp only [List.mem_cons]
      rintro (heq | hmem)
      · exact h0 (congrArg Prod.fst heq).symm
      · exact ih h hmem

end Weblink

namespace Weblink

theorem joinFanout_fst_aget (isOpen : Nat → Bool) (client : TransferClient)
    (ws : Nat) (cs : List (String × ClientData)) (k : String) :
    aget (joinFanout isOpen client ws cs).1 k =
      (aget cs k).map (fun cd =>
        if cd.session = ws then cd
        else if isOpen cd.session then cd
        else { cd with messageCache := cd.messageCache ++ [Envelope.join client] }) := by
  induction cs with
  | nil => simp [joinFanout, aget]
  | cons p rest ih =>
    obtain ⟨k0, cd⟩ := p
    by_cases hk : k0 = k <;>
      by_cases hs : cd.session = ws <;>
        by_cases ho : isOpen cd.session <;>
          simp [joinFanout, aget, hk, hs, ho, ih]

theorem joinFanout_acts_mem (isOpen : Nat → Bool) (client : TransferClient)
    (ws : Nat) {cs : List (String × ClientData)} {k : String} {cd : ClientData}
    (hmem : (k, cd) ∈ cs) (hne : cd.session ≠ ws) (ho : isOpen cd.session = true) :
    Action.send cd.session (Envelope.join client) ∈ (joinFanout isOpen client ws cs).2 := by
  induction cs with
  | nil => simp at hmem
  | cons p rest ih =>
    obtain ⟨k0, cd0⟩ := p
    rcases List.mem_cons.mp hmem with heq | hmem2
    · obtain ⟨h1, h2⟩ := Prod.mk.injEq .. ▸ heq
      subst h2
      simp [joinFanout, hne, ho]
    · by_cases hs : cd0.session = ws <;> by_cases ho0 : isOpen cd0.session <;>
        simp [joinFanout, hs, ho0, ih hmem2]

theorem joinFanout_acts_spec (isOpen : Nat → Bool) (client : TransferClient)
    (ws : Nat) (cs : List (String × ClientData)) :
    ∀ a ∈ (joinFanout isOpen client ws cs).2, ∃ p, p ∈ cs ∧
      a = Action.send p.2.session (Envelope.join client) ∧
      p.2.session ≠ ws ∧ isOpen p.2.session = true := by
  induction cs with
  | nil => simp [joinFanout]
  | cons p rest ih =>
    obtain ⟨k0, cd0⟩ := p
    intro a ha
    by_cases hs : cd0.session = ws
    · simp only [joinFanout, hs, if_pos] at ha
      obtain ⟨q, hq, hrest⟩ := ih a ha
      exact ⟨q, List.mem_cons_of_mem _ hq, hrest⟩
    · by_cases ho : isOpen cd0.session
      · simp only [joinFanout, if_neg hs, ho, if_pos] at ha
        rcases List.mem_cons.mp ha with heq | ha2
        · exact ⟨(k0, cd0), List.mem_cons_self .., heq, hs, ho⟩
        · obtain ⟨q, hq, hrest⟩ := ih a ha2
          exact ⟨q, List.mem_cons_of_mem _ hq, hrest⟩
      · simp only [joinFanout, if_neg hs, if_neg ho] at ha
        obtain ⟨q, hq, hrest⟩ := ih a ha
        exact ⟨q, List.mem_cons_of_mem _ hq, hrest⟩

theorem sentTo_joinFanout (isOpen : Nat → Bool) (client : TransferClient)
    (ws : Nat) (cs : List (String × ClientData)) :
    sentTo ws (joinFanout isOpen client ws cs).2 = [] := by
  rw [sentTo, List.filterMap_eq_nil_iff]
  intro a ha
  obtain ⟨p, _, haeq, hne, _⟩ := joinFanout_acts_spec isOpen client ws cs a ha
  subst haeq
  simp [hne]

theorem sentTo_rosterActs (ws : Nat) (cs : List (String × ClientData)) :
    sentTo ws (rosterActs ws cs) =
      cs.map (fun p => Envelope.join p.2.client) := by
  induction cs with
  | nil => rfl
  | cons p rest ih =>
    simp only [rosterActs, sentTo, List.map_cons, List.filterMap_cons] at ih ⊢
    simp [ih]

theorem sentTo_append (sid : Nat) (l1 l2 : List Action) :
    sentTo sid (l1 ++ l2) = sentTo sid l1 ++ sentTo sid l2 := by
  simp [sentTo, List.filterMap_append]

theorem leaveFanout_fst_aget (isOpen : Nat → Bool) (client : TransferClient)
    (cs : List (String × ClientData)) (k : String) :
    aget (leaveFanout isOpen client cs).1 k =
      (aget cs k).map (fun cd =>
        if isOpen cd.session then cd
        else { cd with messageCache := cd.messageCache ++ [Envelope.leave client] }) := by
  induction cs with
  | nil => simp [leaveFanout, aget]
  | cons p rest ih =>
    obtain ⟨k0, cd⟩ := p
    by_cases hk : k0 = k <;> by_cases ho : isOpen cd.session <;>
      simp [leaveFanout, aget, hk, ho, ih]

theorem leaveFanout_acts_mem (isOpen : Nat → Bool) (client : TransferClient)
    {cs : List (String × ClientData)} {k : String} {cd : ClientData}
    (hmem : (k, cd) ∈ cs) (ho : isOpen cd.session = true) :
    Action.send cd.session (Envelope.leave client) ∈ (leaveFanout isOpen client cs).2 := by
  induction cs with
  | nil => simp at hmem
  | cons p rest ih =>
    obtain ⟨k0, cd0⟩ := p
    rcases List.mem_cons.mp hmem with heq | hmem2
    · obtain ⟨h1, h2⟩ := Prod.mk.injEq .. ▸ heq
      subst h2
      simp [leaveFanout, ho]
    · by_cases ho0 : isOpen cd0.session <;>
        simp [leaveFanout, ho0, ih hmem2]

theorem leaveFanout_fst_length (isOpen : Nat → Bool) (client : TransferClient)
    (cs : List (String × ClientData)) :
    (leaveFanout isOpen client cs).1.length = cs.length := by
  induction cs with
  | nil => rfl
  | cons p rest ih =>
    obtain ⟨k0, cd0⟩ := p
    by_cases ho : isOpen cd0.session <;> simp [leaveFanout, ho, ih]

theorem leaveFanout_fst_isEmpty (isOpen : Nat → Bool) (client : TransferClient)
    (cs : List (String × ClientData)) :
    (leaveFanout isOpen client cs).1.isEmpty = cs.isEmpty := by
  cases cs with
  | nil => rfl
  | cons p rest =>
    obtain ⟨k0, cd0⟩ := p
    by_cases ho : isOpen cd0.session <;> simp [leaveFanout, ho]

end Weblink

namespace Weblink

theorem sweepClients_mem (isOpen : Nat → Bool) (now pongTimeout : Nat)
    {cs : List (String × ClientData)} {p : String × ClientData} (hmem : p ∈ cs)
    {a : Action} (ha : a ∈ sweepOne isOpen now pongTimeout p.2) :
    a ∈ sweepClients isOpen now pongTimeout cs := by
  induction cs with
  | nil => simp at hmem
  | cons q rest ih =>
    obtain ⟨k0, cd0⟩ := q
    rcases List.mem_cons.mp hmem with heq | hmem2
    · subst heq
      exact List.mem_append_left _ ha
    · exact List.mem_append_right _ (ih hmem2)

theorem sweepClients_spec (isOpen : Nat → Bool) (now pongTimeout : Nat)
    (cs : List (String × ClientData)) :
    ∀ a ∈ sweepClients isOpen now pongTimeout cs,
      ∃ p, p ∈ cs ∧ a ∈ sweepOne isOpen now pongTimeout p.2 := by
  induction cs with
  | nil => simp [sweepClients]
  | cons q rest ih =>
    obtain ⟨k0, cd0⟩ := q
    intro a ha
    rcases List.mem_append.mp ha with h1 | h2
    · exact ⟨(k0, cd0), List.mem_cons_self .., h1⟩
    · obtain ⟨p, hp, hap⟩ := ih a h2
      exact ⟨p, List.mem_cons_of_mem _ hp, hap⟩

theorem heartbeatSweep_mem (isOpen : Nat → Bool) (now pongTimeout : Nat)
    {rms : List (String × Room)} {q : String × Room} (hmem : q ∈ rms)
    {a : Action} (ha : a ∈ sweepClients isOpen now pongTimeout q.2.clients) :
    a ∈ heartbeatSweep isOpen now pongTimeout rms := by
  induction rms with
  | nil => simp at hmem
  | cons q0 rest ih =>
    obtain ⟨r0, room0⟩ := q0
    rcases List.mem_cons.mp hmem with heq | hmem2
    · subst heq
      exact List.mem_append_left _ ha
    · exact List.mem_append_right _ (ih hmem2)

theorem heartbeatSweep_spec (isOpen : Nat → Bool) (now pongTimeout : Nat)
    (rms : List (String × Room)) :
    ∀ a ∈ heartbeatSweep isOpen now pongTimeout rms,
      ∃ q, q ∈ rms ∧ a ∈ sweepClients isOpen now pongTimeout q.2.clients := by
  induction rms with
  | nil => simp [heartbeatSweep]
  | cons q0 rest ih =>
    obtain ⟨r0, room0⟩ := q0
    intro a ha
    rcases List.mem_append.mp ha with h1 | h2
    · exact ⟨(r0, room0), List.mem_cons_self .., h1⟩
    · obtain ⟨p, hp, hap⟩ := ih a h2
      exact ⟨p, List.mem_cons_of_mem _ hp, hap⟩

end Weblink

namespace Weblink

/-- C1: for an inbound join whose clientId has no record in the room (the
joining socket being fresh, bound to no record), the server (a) writes to
the joining session exactly one join envelope per existing record, in
registry order; (b) sends the joiner's join envelope to every other record
whose session is open and appends it to the record's messageCache
otherwise; (c) never sends the joiner's own join envelope back to the
joining session; and (d) installs the new record with lastPongTime = now,
a null disconnect timer and an empty messageCache. -/
theorem C1_join_fresh (isOpen : Nat → Bool) (now : Nat) (room : Room)
    (client : TransferClient) (ws : Nat)
    (hfresh : aget room.clients client.clientId = none)
    (hkeys : ∀ p ∈ room.clients, p.1 = p.2.client.clientId)
    (hsess : ∀ p ∈ room.clients, p.2.session ≠ ws) :
    ∀ room2 acts, handleJoin isOpen now room client ws = (room2, acts) →
      (sentTo ws acts = room.clients.map (fun p => Envelope.join p.2.client))
      ∧ (∀ k cd, aget room.clients k = some cd →
          (isOpen cd.session = true →
            Action.send cd.session (Envelope.join client) ∈ acts ∧
            aget room2.clients k = some cd)
          ∧ (isOpen cd.session = false →
            aget room2.clients k =
              some { cd with messageCache := cd.messageCache ++ [Envelope.join client] }))
      ∧ Action.send ws (Envelope.join client) ∉ acts
      ∧ aget room2.clients client.clientId =
          some { client := client, session := ws, lastPongTime := now
                 disconnectTimeout := none, messageCache := [] } := by
  intro room2 acts heq
  simp only [handleJoin, hfresh] at heq
  rw [Prod.mk.injEq] at heq
  obtain ⟨hroom, hacts⟩ := heq
  subst hroom
  subst hacts
  refine ⟨?_, ?_, ?_, ?_⟩
  · rw [sentTo_append, sentTo_rosterActs, sentTo_joinFanout, List.append_nil]
  · intro k cd hk
    have hkne : k ≠ client.clientId := by
      intro h
      rw [h, hfresh] at hk
      exact Option.noConfusion hk
    have hmem : (k, cd) ∈ room.clients := aget_mem hk
    have hns : cd.session ≠ ws := hsess (k, cd) hmem
    constructor
    · intro ho
      constructor
      · exact List.mem_append_right _ (joinFanout_acts_mem isOpen client ws hmem hns ho)
      · show aget (aset (joinFanout isOpen client ws room.clients).1 client.clientId _) k = _
        rw [aget_aset, if_neg (fun h => hkne h.symm), joinFanout_fst_aget, hk]
        simp [hns, ho]
    · intro ho
      show aget (aset (joinFanout isOpen client ws room.clients).1 client.clientId _) k = _
      rw [aget_aset, if_neg (fun h => hkne h.symm), joinFanout_fst_aget, hk]
      simp [hns, ho]
  · intro hmem
    rcases List.mem_append.mp hmem with h1 | h2
    · obtain ⟨p, hp, heq⟩ := List.mem_map.mp h1
      have hc : p.2.client = client := by
        have := (Action.send.injEq .. ▸ heq).2
        exact (Envelope.join.injEq .. ▸ this)
      have hpk : p.1 = client.clientId := by rw [hkeys p hp, hc]
      have : (client.clientId, p.2) ∈ room.clients := by
        have : p = (client.clientId, p.2) := by
          rw [Prod.ext_iff]
          exact ⟨hpk, rfl⟩
        exact this ▸ hp
      exact aget_none_not_mem hfresh p.2 this
    · obtain ⟨p, _, haeq, hne, _⟩ := joinFanout_acts_spec isOpen client ws room.clients _ h2
      have : p.2.session = ws := (Action.send.injEq .. ▸ haeq.symm).1
      exact hne this
  · show aget (aset (joinFanout isOpen client ws room.clients).1 client.clientId _) _ = _
    rw [aget_aset, if_pos rfl]

/-- Concrete room used by the C1 witness: member a on open session 1,
member b on closed session 2. -/
def roomW : Room :=
  { clients :=
      [("a", { client := { clientId := "a", name := "A", avatar := none, createdAt := 1, resume := none }
               session := 1, lastPongTime := 0, disconnectTimeout := none, messageCache := [] }),
       ("b", { client := { clientId := "b", name := "B", avatar := none, createdAt := 2, resume := none }
               session := 2, lastPongTime := 0, disconnectTimeout := none, messageCache := [] })]
    passwordHash := none }

/-- readyState snapshot for the C1 witness: only session 1 is open. -/
def isOpenW : Nat → Bool := fun s => s == 1

/-- Joining descriptor for the C1 witness. -/
def clientW : TransferClient :=
  { clientId := "c", name := "C", avatar := none, createdAt := 3, resume := none }

/-- Witness for C1: in the concrete room, the open member receives the join,
the joining session never gets its own join echoed, and the fresh record is
installed. -/
theorem C1_join_fresh_witness :
    Action.send 1 (Envelope.join clientW) ∈ (handleJoin isOpenW 50 roomW clientW 3).2
    ∧ Action.send 3 (Envelope.join clientW) ∉ (handleJoin isOpenW 50 roomW clientW 3).2
    ∧ aget (handleJoin isOpenW 50 roomW clientW 3).1.clients "c" =
        some { client := clientW, session := 3, lastPongTime := 50
               disconnectTimeout := none, messageCache := [] } := by
  have h := C1_join_fresh isOpenW 50 roomW clientW 3 (by decide) (by decide) (by decide)
    (handleJoin isOpenW 50 roomW clientW 3).1 (handleJoin isOpenW 50 roomW clientW 3).2 rfl
  refine ⟨?_, h.2.2.1, h.2.2.2⟩
  have hb := h.2.1 "a"
    { client := { clientId := "a", name := "A", avatar := none, createdAt := 1, resume := none }
      session := 1, lastPongTime := 0, disconnectTimeout := none, messageCache := [] }
    (by decide)
  exact (hb.1 (by decide)).1

end Weblink

namespace Weblink

theorem stepSignal_noroom (st : ServerState) (isOpen : Nat → Bool) (now ws : Nat)
    (roomId : String) (sg : RawSignal) (hroom : aget st.rooms roomId = none) :
    stepSignal st isOpen now ws roomId sg = (st, []) := by
  simp [stepSignal, hroom]

theorem stepSignal_join (st : ServerState) (isOpen : Nat → Bool) (now ws : Nat)
    (roomId : String) (c : TransferClient) (room : Room)
    (hroom : aget st.rooms roomId = some room) :
    stepSignal st isOpen now ws roomId { type := "join", data := SignalData.client c } =
      ({ rooms := aset st.rooms roomId (handleJoin isOpen now room c ws).1
         binding := aset st.binding ws c.clientId },
       (handleJoin isOpen now room c ws).2) := by
  simp [stepSignal, hroom]

theorem stepSignal_message (st : ServerState) (isOpen : Nat → Bool) (now ws : Nat)
    (roomId : String) (d : ClientSignal) (room : Room)
    (hroom : aget st.rooms roomId = some room) :
    stepSignal st isOpen now ws roomId { type := "message", data := SignalData.target d } =
      (st, handleMessage isOpen room d ws (aget st.binding ws)) := by
  simp [stepSignal, hroom]

theorem stepSignal_leave (st : ServerState) (isOpen : Nat → Bool) (now ws : Nat)
    (roomId : String) (c : TransferClient) (room : Room)
    (hroom : aget st.rooms roomId = some room) :
    stepSignal st isOpen now ws roomId { type := "leave", data := SignalData.client c } =
      ({ st with rooms := (handleLeave isOpen st.rooms roomId room c ws).1 },
       (handleLeave isOpen st.rooms roomId room c ws).2) := by
  simp [stepSignal, hroom]

theorem stepSignal_pong_found (st : ServerState) (isOpen : Nat → Bool) (now ws : Nat)
    (roomId : String) (dta : SignalData) (room : Room) (cd : ClientData)
    (hroom : aget st.rooms roomId = some room)
    (hcd : aget room.clients ((aget st.binding ws).getD "") = some cd) :
    stepSignal st isOpen now ws roomId { type := "pong", data := dta } =
      ({ st with rooms := (aset st.rooms roomId
          { room with clients := (aset room.clients ((aget st.binding ws).getD "")
              { cd with lastPongTime := now }) }) }, []) := by
  simp [stepSignal, hroom, hcd]

theorem stepSignal_pong_missing (st : ServerState) (isOpen : Nat → Bool) (now ws : Nat)
    (roomId : String) (dta : SignalData) (room : Room)
    (hroom : aget st.rooms roomId = some room)
    (hcd : aget room.clients ((aget st.binding ws).getD "") = none) :
    stepSignal st isOpen now ws roomId { type := "pong", data := dta } = (st, []) := by
  simp [stepSignal, hroom, hcd]

theorem stepSignal_unknown (st : ServerState) (isOpen : Nat → Bool) (now ws : Nat)
    (roomId : String) (t : String) (dta : SignalData)
    (h1 : t ≠ "pong") (h2 : t ≠ "join") (h3 : t ≠ "message") (h4 : t ≠ "leave") :
    stepSignal st isOpen now ws roomId { type := t, data := dta } = (st, []) := by
  unfold stepSignal
  cases hr : aget st.rooms roomId with
  | none => rfl
  | some room => simp [h1, h2, h3, h4]

end Weblink

namespace Weblink

/-- Record of member b in the C2 counterexample: its session 2 is not open
and its messageCache is empty. -/
def cdC2b : ClientData :=
  { client := { clientId := "b", name := "B", avatar := none, createdAt := 2, resume := none }
    session := 2, lastPongTime := 0, disconnectTimeout := some (), messageCache := [] }

/-- Room of the C2 counterexample: sender a on open session 1, target b on
closed session 2. -/
def roomC2 : Room :=
  { clients :=
      [("a", { client := { clientId := "a", name := "A", avatar := none, createdAt := 1, resume := none }
               session := 1, lastPongTime := 0, disconnectTimeout := none, messageCache := [] }),
       ("b", cdC2b)]
    passwordHash := none }

/-- Server state of the C2 counterexample. -/
def stC2 : ServerState := { rooms := [("X", roomC2)], binding := [(1, "a"), (2, "b")] }

/-- Message signal of the C2 counterexample, addressed to b. -/
def sigC2 : ClientSignal :=
  { sessionId := "s1", clientId := "a", targetClientId := "b", payload := "offer" }

/-- C2 counterexample: a registered sender (a, session 1) messages target b,
whose record exists but whose session is not open.  The claim requires the
envelope to be appended to b's messageCache; the code instead emits no
action and leaves the whole state unchanged, so b's cache stays empty. -/
theorem C2_message_cache_counterexample :
    aget roomC2.clients "b" = some cdC2b
    ∧ (fun s => s == 1) cdC2b.session = false
    ∧ cdC2b.messageCache = []
    ∧ step stC2 (Event.wsMessage (fun s => s == 1) 10 1 "X"
        { type := "message", data := SignalData.target sigC2 }) = (stC2, []) := by
  exact ⟨by decide, by decide, by decide, by decide⟩

/-- C2 (amended): for an inbound message signal from a session with a
registered record, the server state is left unchanged in every case; when
the target record exists, is not bound to the sender's own socket and its
session is open, exactly that session receives the message envelope; in
every other case (target missing, or its session not open) the envelope is
silently dropped, not cached; nothing is ever written back to the sender's
socket. -/
theorem C2_message_routing (isOpen : Nat → Bool) (now ws : Nat)
    (roomId : String) (st : ServerState) (d : ClientSignal)
    (room : Room) (cid : String) (scd : ClientData)
    (hroom : aget st.rooms roomId = some room)
    (hbind : aget st.binding ws = some cid)
    (hsender : aget room.clients cid = some scd) :
    ∀ st2 acts, step st (Event.wsMessage isOpen now ws roomId
        { type := "message", data := SignalData.target d }) = (st2, acts) →
      st2 = st
      ∧ (∀ tcd, aget room.clients d.targetClientId = some tcd →
          (tcd.session ≠ ws → isOpen tcd.session = true →
            acts = [Action.send tcd.session (Envelope.message d)])
          ∧ (isOpen tcd.session = false → acts = []))
      ∧ (aget room.clients d.targetClientId = none → acts = [])
      ∧ (∀ e, Action.send ws e ∉ acts) := by
  intro st2 acts heq
  rw [show step st (Event.wsMessage isOpen now ws roomId
        { type := "message", data := SignalData.target d }) =
      stepSignal st isOpen now ws roomId
        { type := "message", data := SignalData.target d } from rfl,
    stepSignal_message st isOpen now ws roomId d room hroom, Prod.mk.injEq] at heq
  obtain ⟨hst, hacts⟩ := heq
  subst hst
  have hbd : (aget st.binding ws).getD "" = cid := by rw [hbind]; rfl
  refine ⟨rfl, ?_, ?_, ?_⟩
  · intro tcd htcd
    constructor
    · intro hne ho
      rw [← hacts]
      simp [handleMessage, hbd, hsender, htcd, hne, ho]
    · intro ho
      rw [← hacts]
      by_cases hts : tcd.session = ws <;>
        simp [handleMessage, hbd, hsender, htcd, hts, ho]
  · intro htcd
    rw [← hacts]
    simp [handleMessage, hbd, hsender, htcd]
  · intro e hmem
    rw [← hacts] at hmem
    unfold handleMessage at hmem
    rw [hbd, hsender] at hmem
    cases htcd : aget room.clients d.targetClientId with
    | none => rw [htcd] at hmem; simp at hmem
    | some tcd =>
      rw [htcd] at hmem
      by_cases hts : tcd.session = ws
      · simp [hts] at hmem
      · by_cases ho : isOpen tcd.session
        · simp only [if_neg hts, ho, if_pos] at hmem
          have : Action.send ws e = Action.send tcd.session (Envelope.message d) :=
            List.mem_singleton.mp hmem
          exact hts ((Action.send.injEq .. ▸ this).1.symm)
        · simp [hts, ho] at hmem

/-- Witness for the amended C2: in the counterexample state, a message from
a to b with both sessions open is delivered to b's session only. -/
theorem C2_message_routing_witness :
    (step stC2 (Event.wsMessage (fun _ => true) 10 1 "X"
        { type := "message", data := SignalData.target sigC2 })).2 =
      [Action.send 2 (Envelope.message sigC2)] := by
  have h := C2_message_routing (fun _ => true) 10 1 "X" stC2 sigC2 roomC2 "a"
    { client := { clientId := "a", name := "A", avatar := none, createdAt := 1, resume := none }
      session := 1, lastPongTime := 0, disconnectTimeout := none, messageCache := [] }
    (by decide) (by decide) (by decide)
    (step stC2 (Event.wsMessage (fun _ => true) 10 1 "X"
        { type := "message", data := SignalData.target sigC2 })).1
    (step stC2 (Event.wsMessage (fun _ => true) 10 1 "X"
        { type := "message", data := SignalData.target sigC2 })).2 rfl
  exact ((h.2.1 cdC2b (by decide)).1 (by decide) (by decide))

end Weblink

namespace Weblink

theorem handleJoin_existing (isOpen : Nat → Bool) (now : Nat) (room : Room)
    (c : TransferClient) (ws : Nat) (ex : ClientData)
    (hex : aget room.clients c.clientId = some ex) :
    handleJoin isOpen now room c ws =
      ({ room with clients := (aset room.clients c.clientId
          { ex with
            session := ws, lastPongTime := now
            disconnectTimeout := none, messageCache := [] }) },
        ex.messageCache.map (fun e => Action.send ws e)) := by
  simp [handleJoin, hex]

/-- Prior descriptor of member b in the C3 counterexample. -/
def descB3 : TransferClient :=
  { clientId := "b", name := "B", avatar := none, createdAt := 2, resume := none }

/-- Room of the C3 counterexample: members a (session 1) and b (session 2),
both sessions open, b holding no disconnect timer. -/
def roomC3 : Room :=
  { clients :=
      [("a", { client := { clientId := "a", name := "A", avatar := none, createdAt := 1, resume := none }
               session := 1, lastPongTime := 0, disconnectTimeout := none, messageCache := [] }),
       ("b", { client := descB3, session := 2, lastPongTime := 0
               disconnectTimeout := none, messageCache := [] })]
    passwordHash := none }

/-- Rejoining descriptor of the C3 counterexample: same clientId b, new
name, resume explicitly false. -/
def joinC3 : TransferClient :=
  { clientId := "b", name := "B2", avatar := none, createdAt := 9, resume := some false }

/-- C3 counterexample: a join for b with resume = false while b's record
exists produces no action at all — in particular no
leave(prior descriptor) is sent to member a's open session — and the prior
record is rebound (keeping the old descriptor) rather than evicted and
reinstalled from the new one. -/
theorem C3_counterexample :
    aget roomC3.clients "b" =
      some { client := descB3, session := 2, lastPongTime := 0
             disconnectTimeout := none, messageCache := [] }
    ∧ joinC3.resume = some false
    ∧ (handleJoin (fun _ => true) 100 roomC3 joinC3 3).2 = []
    ∧ aget (handleJoin (fun _ => true) 100 roomC3 joinC3 3).1.clients "b" =
        some { client := descB3, session := 3, lastPongTime := 100
               disconnectTimeout := none, messageCache := [] }
    ∧ descB3.name = "B" ∧ joinC3.name = "B2" := by
  exact ⟨by decide, by decide, by decide, by decide, by decide, by decide⟩

/-- C3 (amended): an inbound join whose clientId matches an existing record,
with resume = false or no resume flag, does not evict the prior record and
broadcasts nothing: the record is rebound to the new socket (timer cleared,
lastPongTime refreshed, cached envelopes flushed to the joiner, cache then
empty), every emitted action is a write to the joining socket, and every
other record is untouched. -/
theorem C3_no_evict_on_nonresume_join (isOpen : Nat → Bool) (now : Nat)
    (room : Room) (c : TransferClient) (ws : Nat) (ex : ClientData)
    (hex : aget room.clients c.clientId = some ex)
    (hres : c.resume = none ∨ c.resume = some false) :
    ∀ room2 acts, handleJoin isOpen now room c ws = (room2, acts) →
      acts = ex.messageCache.map (fun e => Action.send ws e)
      ∧ (∀ a ∈ acts, ∃ e, a = Action.send ws e)
      ∧ aget room2.clients c.clientId =
          some { ex with
                 session := ws, lastPongTime := now
                 disconnectTimeout := none, messageCache := [] }
      ∧ (∀ k, k ≠ c.clientId → aget room2.clients k = aget room.clients k) := by
  intro room2 acts heq
  rw [handleJoin_existing isOpen now room c ws ex hex, Prod.mk.injEq] at heq
  obtain ⟨hroom, hacts⟩ := heq
  subst hroom
  subst hacts
  refine ⟨rfl, ?_, ?_, ?_⟩
  · intro a ha
    obtain ⟨e, _, he⟩ := List.mem_map.mp ha
    exact ⟨e, he.symm⟩
  · show aget (aset room.clients c.clientId _) c.clientId = _
    rw [aget_aset, if_pos rfl]
  · intro k hk
    show aget (aset room.clients c.clientId _) k = _
    rw [aget_aset, if_neg (fun h => hk h.symm)]

/-- Witness for the amended C3: concrete rejoin of b with resume = false in
a two-member room flushes nothing and leaves member a's record untouched. -/
theorem C3_no_evict_on_nonresume_join_witness :
    (handleJoin (fun _ => true) 100 roomC3 joinC3 3).2 = []
    ∧ aget (handleJoin (fun _ => true) 100 roomC3 joinC3 3).1.clients "a" =
        aget roomC3.clients "a" := by
  have h := C3_no_evict_on_nonresume_join (fun _ => true) 100 roomC3 joinC3 3
    { client := descB3, session := 2, lastPongTime := 0
      disconnectTimeout := none, messageCache := [] }
    (by decide) (Or.inr (by decide))
    (handleJoin (fun _ => true) 100 roomC3 joinC3 3).1
    (handleJoin (fun _ => true) 100 roomC3 joinC3 3).2 rfl
  exact ⟨h.1, h.2.2.2 "a" (by decide)⟩

/-- C4: a join for clientId c arriving while c's record holds a pending
disconnect timer cancels the timer (field becomes null), rebinds the
record's session to the new socket, writes every cached envelope to the new
session in FIFO order leaving the cache empty, addresses every emitted
action to the joining socket only, and leaves all other records unchanged. -/
theorem C4_grace_resume_flush (isOpen : Nat → Bool) (now : Nat)
    (room : Room) (c : TransferClient) (ws : Nat) (ex : ClientData)
    (hex : aget room.clients c.clientId = some ex)
    (htimer : ex.disconnectTimeout = some ()) :
    ∀ room2 acts, handleJoin isOpen now room c ws = (room2, acts) →
      acts = ex.messageCache.map (fun e => Action.send ws e)
      ∧ aget room2.clients c.clientId =
          some { ex with
                 session := ws, lastPongTime := now
                 disconnectTimeout := none, messageCache := [] }
      ∧ (∀ a ∈ acts, ∃ e, a = Action.send ws e)
      ∧ (∀ k, k ≠ c.clientId → aget room2.clients k = aget room.clients k) := by
  intro room2 acts heq
  rw [handleJoin_existing isOpen now room c ws ex hex, Prod.mk.injEq] at heq
  obtain ⟨hroom, hacts⟩ := heq
  subst hroom
  subst hacts
  refine ⟨rfl, ?_, ?_, ?_⟩
  · show aget (aset room.clients c.clientId _) c.clientId = _
    rw [aget_aset, if_pos rfl]
  · intro a ha
    obtain ⟨e, _, he⟩ := List.mem_map.mp ha
    exact ⟨e, he.symm⟩
  · intro k hk
    show aget (aset room.clients c.clientId _) k = _
    rw [aget_aset, if_neg (fun h => hk h.symm)]

/-- Record of b in grace period for the C4 witness: timer armed, two queued
envelopes. -/
def cdC4b : ClientData :=
  { client := { clientId := "b", name := "B", avatar := none, createdAt := 2, resume := none }
    session := 2, lastPongTime := 0, disconnectTimeout := some ()
    messageCache :=
      [Envelope.message { sessionId := "s1", clientId := "a", targetClientId := "b", payload := "m1" },
       Envelope.message { sessionId := "s1", clientId := "a", targetClientId := "b", payload := "m2" }] }

/-- Room of the C4 witness. -/
def roomC4 : Room :=
  { clients :=
      [("a", { client := { clientId := "a", name := "A", avatar := none, createdAt := 1, resume := none }
               session := 1, lastPongTime := 0, disconnectTimeout := none, messageCache := [] }),
       ("b", cdC4b)]
    passwordHash := none }

/-- Resuming join descriptor for the C4 witness. -/
def joinC4 : TransferClient :=
  { clientId := "b", name := "B", avatar := none, createdAt := 2, resume := some true }

/-- Witness for C4: the two queued envelopes are flushed to the new socket 4
in order and b's record ends with no timer and an empty cache. -/
theorem C4_grace_resume_flush_witness :
    (handleJoin (fun s => s == 1) 70 roomC4 joinC4 4).2 =
      [Action.send 4 (Envelope.message { sessionId := "s1", clientId := "a", targetClientId := "b", payload := "m1" }),
       Action.send 4 (Envelope.message { sessionId := "s1", clientId := "a", targetClientId := "b", payload := "m2" })]
    ∧ aget (handleJoin (fun s => s == 1) 70 roomC4 joinC4 4).1.clients "b" =
        some { client := cdC4b.client, session := 4, lastPongTime := 70
               disconnectTimeout := none, messageCache := [] } := by
  have h := C4_grace_resume_flush (fun s => s == 1) 70 roomC4 joinC4 4 cdC4b
    (by decide) (by decide)
    (handleJoin (fun s => s == 1) 70 roomC4 joinC4 4).1
    (handleJoin (fun s => s == 1) 70 roomC4 joinC4 4).2 rfl
  exact ⟨h.1, h.2.1⟩

/-- C10: an inbound join whose clientId matches an existing record rebinds
that record's session to the new socket even when the prior session is
still open and no disconnect timer is pending (no grace-period or
resume-flag check), keeps the originally stored descriptor (the new join's
name, avatar and createdAt are discarded: the result holds ex.client, not
the incoming descriptor), and notifies no other member: every action
targets the joining socket and all other records are untouched. -/
theorem C10_rebind_keeps_descriptor (isOpen : Nat → Bool) (now : Nat)
    (room : Room) (c : TransferClient) (ws : Nat) (ex : ClientData)
    (hex : aget room.clients c.clientId = some ex)
    (hopen : isOpen ex.session = true)
    (hnotimer : ex.disconnectTimeout = none) :
    ∀ room2 acts, handleJoin isOpen now room c ws = (room2, acts) →
      aget room2.clients c.clientId =
        some { client := ex.client, session := ws, lastPongTime := now
               disconnectTimeout := none, messageCache := [] }
      ∧ (∀ a ∈ acts, ∃ e, a = Action.send ws e)
      ∧ (∀ k, k ≠ c.clientId → aget room2.clients k = aget room.clients k) := by
  intro room2 acts heq
  rw [handleJoin_existing isOpen now room c ws ex hex, Prod.mk.injEq] at heq
  obtain ⟨hroom, hacts⟩ := heq
  subst hroom
  subst hacts
  refine ⟨?_, ?_, ?_⟩
  · show aget (aset room.clients c.clientId _) c.clientId = _
    rw [aget_aset, if_pos rfl]
  · intro a ha
    obtain ⟨e, _, he⟩ := List.mem_map.mp ha
    exact ⟨e, he.symm⟩
  · intro k hk
    show aget (aset room.clients c.clientId _) k = _
    rw [aget_aset, if_neg (fun h => hk h.symm)]

/-- Prior record of b for the C10 witness: session 2 still open, no timer. -/
def cdC10b : ClientData :=
  { client := { clientId := "b", name := "B", avatar := some "old.png", createdAt := 2, resume := none }
    session := 2, lastPongTime := 0, disconnectTimeout := none, messageCache := [] }

/-- Room of the C10 witness. -/
def roomC10 : Room :=
  { clients := [("b", cdC10b)], passwordHash := some "h" }

/-- Rejoin descriptor of the C10 witness carrying a different name, avatar
and createdAt. -/
def joinC10 : TransferClient :=
  { clientId := "b", name := "NEW", avatar := some "new.png", createdAt := 77, resume := none }

/-- Witness for C10: rebinding to socket 5 keeps the stored descriptor
(name B, avatar old.png, createdAt 2), discarding the new join's fields. -/
theorem C10_rebind_keeps_descriptor_witness :
    aget (handleJoin (fun _ => true) 80 roomC10 joinC10 5).1.clients "b" =
      some { client := cdC10b.client, session := 5, lastPongTime := 80
             disconnectTimeout := none, messageCache := [] }
    ∧ cdC10b.client.name = "B" ∧ joinC10.name = "NEW" := by
  have h := C10_rebind_keeps_descriptor (fun _ => true) 80 roomC10 joinC10 5 cdC10b
    (by decide) (by decide) (by decide)
    (handleJoin (fun _ => true) 80 roomC10 joinC10 5).1
    (handleJoin (fun _ => true) 80 roomC10 joinC10 5).2 rfl
  exact ⟨h.1, by decide, by decide⟩

end Weblink

namespace Weblink

theorem handleJoin_passwordHash (isOpen : Nat → Bool) (now : Nat) (room : Room)
    (c : TransferClient) (ws : Nat) :
    (handleJoin isOpen now room c ws).1.passwordHash = room.passwordHash := by
  cases hx : aget room.clients c.clientId with
  | none => simp [handleJoin, hx]
  | some ex => simp [handleJoin, hx]

theorem hash_of_same (st : ServerState) (roomId : String) (room room2 : Room)
    (h1 : aget st.rooms roomId = some room)
    (h2 : aget st.rooms roomId = some room2) :
    room2.passwordHash = room.passwordHash := by
  rw [h1] at h2
  injection h2 with h
  rw [← h]

theorem hash_of_aset (rooms : List (String × Room)) (rid roomId : String)
    (room room1 newRoom room2 : Room)
    (h1 : aget rooms roomId = some room)
    (hr : aget rooms rid = some room1)
    (hnew : newRoom.passwordHash = room1.passwordHash)
    (h2 : aget (aset rooms rid newRoom) roomId = some room2) :
    room2.passwordHash = room.passwordHash := by
  rw [aget_aset] at h2
  by_cases he : rid = roomId
  · rw [if_pos he] at h2
    injection h2 with h
    subst he
    rw [hr] at h1
    injection h1 with h1e
    rw [← h, hnew, h1e]
  · rw [if_neg he, h1] at h2
    injection h2 with h
    rw [← h]

theorem handleLeave_hash (isOpen : Nat → Bool) (rooms : List (String × Room))
    (rid : String) (rm : Room) (c : TransferClient) (ws : Nat)
    (hm : aget rooms rid = some rm) (roomId : String) (room room2 : Room)
    (h1 : aget rooms roomId = some room)
    (h2 : aget (handleLeave isOpen rooms rid rm c ws).1 roomId = some room2) :
    room2.passwordHash = room.passwordHash := by
  unfold handleLeave at h2
  cases hx : aget rm.clients c.clientId with
  | none =>
    rw [hx] at h2
    rw [h1] at h2
    injection h2 with h
    rw [← h]
  | some cd =>
    rw [hx] at h2
    simp only [] at h2
    by_cases he : (leaveFanout isOpen c (adel rm.clients c.clientId)).1.isEmpty
    · rw [if_pos he, aget_adel] at h2
      by_cases hq : rid = roomId
      · rw [if_pos hq] at h2
        exact Option.noConfusion h2
      · rw [if_neg hq, h1] at h2
        injection h2 with h
        rw [← h]
    · rw [if_neg he] at h2
      exact hash_of_aset rooms rid roomId room rm
        { rm with clients := (leaveFanout isOpen c (adel rm.clients c.clientId)).1 }
        room2 h1 hm rfl h2

theorem stepSignal_hash (st : ServerState) (isOpen : Nat → Bool) (now ws : Nat)
    (rid : String) (sg : RawSignal) (roomId : String) (room room2 : Room)
    (h1 : aget st.rooms roomId = some room)
    (h2 : aget (stepSignal st isOpen now ws rid sg).1.rooms roomId = some room2) :
    room2.passwordHash = room.passwordHash := by
  obtain ⟨t, dta⟩ := sg
  cases hr : aget st.rooms rid with
  | none =>
    rw [stepSignal_noroom st isOpen now ws rid _ hr] at h2
    exact hash_of_same st roomId room room2 h1 h2
  | some rm =>
    by_cases hp : t = "pong"
    · subst hp
      cases hc : aget rm.clients ((aget st.binding ws).getD "") with
      | none =>
        rw [stepSignal_pong_missing st isOpen now ws rid dta rm hr hc] at h2
        exact hash_of_same st roomId room room2 h1 h2
      | some cd =>
        rw [stepSignal_pong_found st isOpen now ws rid dta rm cd hr hc] at h2
        exact hash_of_aset st.rooms rid roomId room rm
          { rm with clients := (aset rm.clients ((aget st.binding ws).getD "")
              { cd with lastPongTime := now }) } room2 h1 hr rfl h2
    · by_cases hj : t = "join"
      · subst hj
        cases dta with
        | client c =>
          rw [stepSignal_join st isOpen now ws rid c rm hr] at h2
          exact hash_of_aset st.rooms rid roomId room rm _ room2 h1 hr
            (handleJoin_passwordHash isOpen now rm c ws) h2
        | target s =>
          have hs : stepSignal st isOpen now ws rid
              { type := "join", data := SignalData.target s } = (st, []) := by
            simp [stepSignal, hr]
          rw [hs] at h2
          exact hash_of_same st roomId room room2 h1 h2
        | empty =>
          have hs : stepSignal st isOpen now ws rid
              { type := "join", data := SignalData.empty } = (st, []) := by
            simp [stepSignal, hr]
          rw [hs] at h2
          exact hash_of_same st roomId room room2 h1 h2
      · by_cases hg : t = "message"
        · subst hg
          cases dta with
          | target s =>
            rw [stepSignal_message st isOpen now ws rid s rm hr] at h2
            exact hash_of_same st roomId room room2 h1 h2
          | client c =>
            have hs : stepSignal st isOpen now ws rid
                { type := "message", data := SignalData.client c } = (st, []) := by
              simp [stepSignal, hr]
            rw [hs] at h2
            exact hash_of_same st roomId room room2 h1 h2
          | empty =>
            have hs : stepSignal st isOpen now ws rid
                { type := "message", data := SignalData.empty } = (st, []) := by
              simp [stepSignal, hr]
            rw [hs] at h2
            exact hash_of_same st roomId room room2 h1 h2
        · by_cases hl : t = "leave"
          · subst hl
            cases dta with
            | client c =>
              rw [stepSignal_leave st isOpen now ws rid c rm hr] at h2
              exact handleLeave_hash isOpen st.rooms rid rm c ws hr roomId room room2 h1 h2
            | target s =>
              have hs : stepSignal st isOpen now ws rid
                  { type := "leave", data := SignalData.target s } = (st, []) := by
                simp [stepSignal, hr]
              rw [hs] at h2
              exact hash_of_same st roomId room room2 h1 h2
            | empty =>
              have hs : stepSignal st isOpen now ws rid
                  { type := "leave", data := SignalData.empty } = (st, []) := by
                simp [stepSignal, hr]
              rw [hs] at h2
              exact hash_of_same st roomId room room2 h1 h2
          · rw [stepSignal_unknown st isOpen now ws rid _ _ hp hj hg hl] at h2
            exact hash_of_same st roomId room room2 h1 h2

theorem stepClose_noroom (st : ServerState) (ws : Nat) (rid : String)
    (hr : aget st.rooms rid = none) : stepClose st ws rid = (st, []) := by
  simp [stepClose, hr]

theorem stepClose_norecord (st : ServerState) (ws : Nat) (rid : String) (rm : Room)
    (hr : aget st.rooms rid = some rm)
    (hc : aget rm.clients ((aget st.binding ws).getD "") = none) :
    stepClose st ws rid = (st, []) := by
  simp [stepClose, hr, hc]

theorem stepClose_found (st : ServerState) (ws : Nat) (rid : String) (rm : Room)
    (cd : ClientData) (hr : aget st.rooms rid = some rm)
    (hc : aget rm.clients ((aget st.binding ws).getD "") = some cd) :
    stepClose st ws rid =
      ({ st with rooms := (aset st.rooms rid
          { rm with clients := (aset rm.clients ((aget st.binding ws).getD "")
              { cd with disconnectTimeout := some () }) }) }, []) := by
  simp [stepClose, hr, hc]

theorem stepTimer_noroom (st : ServerState) (isOpen : Nat → Bool) (rid cid : String)
    (hr : aget st.rooms rid = none) : stepTimer st isOpen rid cid = (st, []) := by
  simp [stepTimer, hr]

theorem stepTimer_norecord (st : ServerState) (isOpen : Nat → Bool) (rid cid : String)
    (rm : Room) (hr : aget st.rooms rid = some rm)
    (hc : aget rm.clients cid = none) : stepTimer st isOpen rid cid = (st, []) := by
  simp [stepTimer, hr, hc]

theorem stepTimer_cancelled (st : ServerState) (isOpen : Nat → Bool) (rid cid : String)
    (rm : Room) (cd : ClientData) (hr : aget st.rooms rid = some rm)
    (hc : aget rm.clients cid = some cd) (ht : cd.disconnectTimeout = none) :
    stepTimer st isOpen rid cid = (st, []) := by
  simp [stepTimer, hr, hc, ht]

theorem stepTimer_run (st : ServerState) (isOpen : Nat → Bool) (rid cid : String)
    (rm : Room) (cd : ClientData) (hr : aget st.rooms rid = some rm)
    (hc : aget rm.clients cid = some cd) (ht : cd.disconnectTimeout.isSome = true) :
    stepTimer st isOpen rid cid =
      ({ st with rooms := (handleLeave isOpen st.rooms rid rm cd.client cd.session).1 },
       (handleLeave isOpen st.rooms rid rm cd.client cd.session).2) := by
  simp [stepTimer, hr, hc, ht]

theorem step_hash (st : ServerState) (e : Event) (roomId : String) (room room2 : Room)
    (h1 : aget st.rooms roomId = some room)
    (h2 : aget (step st e).1.rooms roomId = some room2) :
    room2.passwordHash = room.passwordHash := by
  cases e with
  | wsOpen ws rid pwd =>
    rw [show step st (Event.wsOpen ws rid pwd) = stepOpen st ws rid pwd from rfl] at h2
    unfold stepOpen at h2
    cases hr : aget st.rooms rid with
    | some rm =>
      rw [hr] at h2
      exact hash_of_same st roomId room room2 h1 h2
    | none =>
      rw [hr] at h2
      have h2x : aget (aset st.rooms rid
          { clients := [], passwordHash := if pwd = "" then none else some pwd }) roomId
          = some room2 := h2
      rw [aget_aset] at h2x
      by_cases he : rid = roomId
      · rw [if_pos he] at h2x
        rw [he, h1] at hr
        exact Option.noConfusion hr
      · rw [if_neg he, h1] at h2x
        injection h2x with h
        rw [← h]
  | wsMessage isOpen now ws rid sg =>
    exact stepSignal_hash st isOpen now ws rid sg roomId room room2 h1 h2
  | wsClose ws rid =>
    rw [show step st (Event.wsClose ws rid) = stepClose st ws rid from rfl] at h2
    cases hr : aget st.rooms rid with
    | none =>
      rw [stepClose_noroom st ws rid hr] at h2
      exact hash_of_same st roomId room room2 h1 h2
    | some rm =>
      cases hc : aget rm.clients ((aget st.binding ws).getD "") with
      | none =>
        rw [stepClose_norecord st ws rid rm hr hc] at h2
        exact hash_of_same st roomId room room2 h1 h2
      | some cd =>
        rw [stepClose_found st ws rid rm cd hr hc] at h2
        exact hash_of_aset st.rooms rid roomId room rm
          { rm with clients := (aset rm.clients ((aget st.binding ws).getD "")
              { cd with disconnectTimeout := some () }) } room2 h1 hr rfl h2
  | timerFire isOpen rid cid =>
    rw [show step st (Event.timerFire isOpen rid cid) = stepTimer st isOpen rid cid from rfl] at h2
    cases hr : aget st.rooms rid with
    | none =>
      rw [stepTimer_noroom st isOpen rid cid hr] at h2
      exact hash_of_same st roomId room room2 h1 h2
    | some rm =>
      cases hc : aget rm.clients cid with
      | none =>
        rw [stepTimer_norecord st isOpen rid cid rm hr hc] at h2
        exact hash_of_same st roomId room room2 h1 h2
      | some cd =>
        cases ht : cd.disconnectTimeout with
        | none =>
          rw [stepTimer_cancelled st isOpen rid cid rm cd hr hc ht] at h2
          exact hash_of_same st roomId room room2 h1 h2
        | some u =>
          rw [stepTimer_run st isOpen rid cid rm cd hr hc (by rw [ht]; rfl)] at h2
          exact handleLeave_hash isOpen st.rooms rid rm cd.client cd.session hr
            roomId room room2 h1 h2
  | heartbeat isOpen now pongTimeout =>
    exact hash_of_same st roomId room room2 h1 h2

/-- C5: on every WebSocket open the server sends exactly one connected
envelope carrying the room's stored passwordHash; for a fresh roomId the
room is created with the first connector's pwd (null when the query value
is empty), the envelope echoes that stored value, and for an existing room
the connector's pwd does not appear anywhere in the outcome: only the
stored hash is echoed and the state is unchanged.  Moreover no event of the
server ever changes the passwordHash of a room that stays in the map. -/
theorem C5_connected_hash_immutable :
    (∀ (st : ServerState) (ws : Nat) (roomId pwd : String) (room : Room),
        aget st.rooms roomId = some room →
        step st (Event.wsOpen ws roomId pwd) =
          (st, [Action.send ws (Envelope.connected room.passwordHash)]))
    ∧ (∀ (st : ServerState) (ws : Nat) (roomId pwd : String),
        aget st.rooms roomId = none →
        ∀ st2 acts, step st (Event.wsOpen ws roomId pwd) = (st2, acts) →
          acts = [Action.send ws (Envelope.connected (if pwd = "" then none else some pwd))]
          ∧ aget st2.rooms roomId =
              some { clients := [], passwordHash := if pwd = "" then none else some pwd })
    ∧ (∀ (st : ServerState) (e : Event) (roomId : String) (room room2 : Room),
        aget st.rooms roomId = some room →
        aget (step st e).1.rooms roomId = some room2 →
        room2.passwordHash = room.passwordHash) := by
  refine ⟨?_, ?_, step_hash⟩
  · intro st ws roomId pwd room hroom
    simp [step, stepOpen, hroom]
  · intro st ws roomId pwd hroom st2 acts heq
    simp only [step, stepOpen, hroom] at heq
    rw [Prod.mk.injEq] at heq
    obtain ⟨hst, hacts⟩ := heq
    subst hst
    subst hacts
    refine ⟨rfl, ?_⟩
    show aget (aset st.rooms roomId _) roomId = _
    rw [aget_aset, if_pos rfl]

/-- State for the C5 witness: room X exists with stored hash h1. -/
def stW5 : ServerState :=
  { rooms := [("X", { clients := [], passwordHash := some "h1" })], binding := [] }

/-- Witness for C5: a later connector supplying pwd other is answered with
the stored hash h1 and the state is untouched; creating room Y with pwd pw
stores and echoes pw. -/
theorem C5_connected_hash_immutable_witness :
    step stW5 (Event.wsOpen 2 "X" "other") =
      (stW5, [Action.send 2 (Envelope.connected (some "h1"))])
    ∧ aget (step stW5 (Event.wsOpen 3 "Y" "pw")).1.rooms "Y" =
        some { clients := [], passwordHash := some "pw" } := by
  constructor
  · exact C5_connected_hash_immutable.1 stW5 2 "X" "other"
      { clients := [], passwordHash := some "h1" } (by decide)
  · exact (C5_connected_hash_immutable.2.1 stW5 3 "Y" "pw" (by decide)
      (step stW5 (Event.wsOpen 3 "Y" "pw")).1
      (step stW5 (Event.wsOpen 3 "Y" "pw")).2 rfl).2

end Weblink

namespace Weblink

/-- C6: a heartbeat sweep changes no state; for every client record with an
open session it closes the session when now - lastPongTime exceeds the pong
timeout and sends a ping envelope otherwise; and every action the sweep
emits originates from some record with an open session under the matching
condition, so records whose sessions are not open are neither pinged nor
closed. -/
theorem C6_heartbeat_sweep (st : ServerState) (isOpen : Nat → Bool)
    (now pongTimeout : Nat) :
    ∀ st2 acts, step st (Event.heartbeat isOpen now pongTimeout) = (st2, acts) →
      st2 = st
      ∧ (∀ q ∈ st.rooms, ∀ p ∈ q.2.clients, isOpen p.2.session = true →
          (now - p.2.lastPongTime > pongTimeout → Action.close p.2.session ∈ acts)
          ∧ (¬ now - p.2.lastPongTime > pongTimeout →
              Action.send p.2.session Envelope.ping ∈ acts))
      ∧ (∀ a ∈ acts, ∃ q p, q ∈ st.rooms ∧ p ∈ q.2.clients ∧ isOpen p.2.session = true ∧
          ((now - p.2.lastPongTime > pongTimeout ∧ a = Action.close p.2.session)
           ∨ (¬ now - p.2.lastPongTime > pongTimeout
              ∧ a = Action.send p.2.session Envelope.ping))) := by
  intro st2 acts heq
  rw [show step st (Event.heartbeat isOpen now pongTimeout) =
      (st, heartbeatSweep isOpen now pongTimeout st.rooms) from rfl,
    Prod.mk.injEq] at heq
  obtain ⟨hst, hacts⟩ := heq
  subst hst
  subst hacts
  refine ⟨rfl, ?_, ?_⟩
  · intro q hq p hp ho
    constructor
    · intro ht
      apply heartbeatSweep_mem isOpen now pongTimeout hq
      apply sweepClients_mem isOpen now pongTimeout hp
      simp [sweepOne, ho, ht]
    · intro ht
      apply heartbeatSweep_mem isOpen now pongTimeout hq
      apply sweepClients_mem isOpen now pongTimeout hp
      simp [sweepOne, ho, ht]
  · intro a ha
    obtain ⟨q, hq, ha2⟩ := heartbeatSweep_spec isOpen now pongTimeout st.rooms a ha
    obtain ⟨p, hp, ha3⟩ := sweepClients_spec isOpen now pongTimeout q.2.clients a ha2
    by_cases ho : isOpen p.2.session = true
    · by_cases ht : now - p.2.lastPongTime > pongTimeout
      · refine ⟨q, p, hq, hp, ho, Or.inl ⟨ht, ?_⟩⟩
        simpa [sweepOne, ho, ht] using ha3
      · refine ⟨q, p, hq, hp, ho, Or.inr ⟨ht, ?_⟩⟩
        simpa [sweepOne, ho, ht] using ha3
    · rw [sweepOne, if_neg ho] at ha3
      simp at ha3

/-- Room for the C6 witness: a timed out on open session 1, b fresh on open
session 2, c on closed session 3 with stale lastPongTime. -/
def roomHB : Room :=
  { clients :=
      [("a", { client := { clientId := "a", name := "A", avatar := none, createdAt := 1, resume := none }
               session := 1, lastPongTime := 0, disconnectTimeout := none, messageCache := [] }),
       ("b", { client := { clientId := "b", name := "B", avatar := none, createdAt := 2, resume := none }
               session := 2, lastPongTime := 90000, disconnectTimeout := none, messageCache := [] }),
       ("c", { client := { clientId := "c", name := "C", avatar := none, createdAt := 3, resume := none }
               session := 3, lastPongTime := 0, disconnectTimeout := some (), messageCache := [] })]
    passwordHash := none }

/-- State for the C6 witness. -/
def stHB : ServerState := { rooms := [("X", roomHB)], binding := [(1, "a"), (2, "b")] }

/-- readyState for the C6 witness: sessions 1 and 2 open, 3 closed. -/
def isOpenHB : Nat → Bool := fun s => s == 1 || s == 2

/-- Witness for C6 at the default PONG_TIMEOUT: the timed-out session 1 is
closed, the fresh session 2 is pinged, and the sweep emits exactly those
two actions, none touching the closed session 3. -/
theorem C6_heartbeat_sweep_witness :
    Action.close 1 ∈ (step stHB (Event.heartbeat isOpenHB 100000 PONG_TIMEOUT)).2
    ∧ Action.send 2 Envelope.ping ∈ (step stHB (Event.heartbeat isOpenHB 100000 PONG_TIMEOUT)).2
    ∧ (step stHB (Event.heartbeat isOpenHB 100000 PONG_TIMEOUT)).1 = stHB := by
  have h := C6_heartbeat_sweep stHB isOpenHB 100000 PONG_TIMEOUT
    (step stHB (Event.heartbeat isOpenHB 100000 PONG_TIMEOUT)).1
    (step stHB (Event.heartbeat isOpenHB 100000 PONG_TIMEOUT)).2 rfl
  refine ⟨?_, ?_, h.1⟩
  · exact (h.2.1 ("X", roomHB) (by decide)
      ("a", { client := { clientId := "a", name := "A", avatar := none, createdAt := 1, resume := none }
              session := 1, lastPongTime := 0, disconnectTimeout := none, messageCache := [] })
      (by decide) (by decide)).1 (by decide)
  · exact (h.2.1 ("X", roomHB) (by decide)
      ("b", { client := { clientId := "b", name := "B", avatar := none, createdAt := 2, resume := none }
              session := 2, lastPongTime := 90000, disconnectTimeout := none, messageCache := [] })
      (by decide) (by decide)).2 (by decide)

end Weblink

namespace Weblink

/-- Record of a for the C7 counterexample, lastPongTime 5. -/
def cdC7 : ClientData :=
  { client := { clientId := "a", name := "A", avatar := none, createdAt := 1, resume := none }
    session := 1, lastPongTime := 5, disconnectTimeout := none, messageCache := [] }

/-- Room of the C7 counterexample. -/
def roomC7 : Room := { clients := [("a", cdC7)], passwordHash := none }

/-- State of the C7 counterexample: socket 1 identified as a. -/
def stC7 : ServerState := { rooms := [("X", roomC7)], binding := [(1, "a")] }

/-- C7 counterexample: an inbound ping at time 100 from identified session 1
leaves the state unchanged — a's lastPongTime stays 5, nothing is sent —
whereas an inbound pong at the same state sets it to 100.  Inbound ping is
handled by the unknown-signal default, not as liveness. -/
theorem C7_counterexample :
    step stC7 (Event.wsMessage (fun _ => true) 100 1 "X"
      { type := "ping", data := SignalData.empty }) = (stC7, [])
    ∧ aget roomC7.clients "a" = some cdC7
    ∧ cdC7.lastPongTime = 5
    ∧ ((aget (step stC7 (Event.wsMessage (fun _ => true) 100 1 "X"
        { type := "pong", data := SignalData.empty })).1.rooms "X").bind
          (fun r => aget r.clients "a")).map (fun cd => cd.lastPongTime) = some 100 := by
  exact ⟨by decide, by decide, by decide, by decide⟩

/-- C7 (corrected): the message callback recognizes no inbound ping: a
signal of type ping falls through to the unknown-signal default, leaving
the state unchanged and emitting nothing — in particular no lastPongTime
update — while an inbound pong from a session whose bound clientId has a
record sets exactly that record's lastPongTime to now. -/
theorem C7_ping_ignored_pong_is_liveness :
    (∀ (st : ServerState) (isOpen : Nat → Bool) (now ws : Nat) (roomId : String)
        (dta : SignalData),
        step st (Event.wsMessage isOpen now ws roomId
          { type := "ping", data := dta }) = (st, []))
    ∧ (∀ (st : ServerState) (isOpen : Nat → Bool) (now ws : Nat) (roomId : String)
        (dta : SignalData) (room : Room) (cid : String) (cd : ClientData),
        aget st.rooms roomId = some room →
        aget st.binding ws = some cid →
        aget room.clients cid = some cd →
        ∀ st2 acts, step st (Event.wsMessage isOpen now ws roomId
            { type := "pong", data := dta }) = (st2, acts) →
          acts = [] ∧ ∃ room2, aget st2.rooms roomId = some room2 ∧
            aget room2.clients cid = some { cd with lastPongTime := now }) := by
  constructor
  · intro st isOpen now ws roomId dta
    cases hr : aget st.rooms roomId with
    | none => exact stepSignal_noroom st isOpen now ws roomId _ hr
    | some rm =>
      exact stepSignal_unknown st isOpen now ws roomId "ping" dta
        (by decide) (by decide) (by decide) (by decide)
  · intro st isOpen now ws roomId dta room cid cd hroom hbind hcd st2 acts heq
    have hbd : (aget st.binding ws).getD "" = cid := by rw [hbind]; rfl
    rw [show step st (Event.wsMessage isOpen now ws roomId
          { type := "pong", data := dta }) =
        stepSignal st isOpen now ws roomId { type := "pong", data := dta } from rfl,
      stepSignal_pong_found st isOpen now ws roomId dta room cd hroom
        (by rw [hbd]; exact hcd), Prod.mk.injEq] at heq
    obtain ⟨hst, hacts⟩ := heq
    subst hst
    subst hacts
    refine ⟨rfl, ⟨{ room with clients := (aset room.clients ((aget st.binding ws).getD "")
        { cd with lastPongTime := now }) }, ?_, ?_⟩⟩
    · show aget (aset st.rooms roomId _) roomId = _
      rw [aget_aset, if_pos rfl]
    · show aget (aset room.clients ((aget st.binding ws).getD "") _) cid = _
      rw [hbd, aget_aset, if_pos rfl]

/-- Witness for the corrected C7: concrete ping leaves the state alone;
concrete pong emits nothing (and, per the counterexample, bumps the
record's lastPongTime). -/
theorem C7_ping_ignored_pong_is_liveness_witness :
    step stC7 (Event.wsMessage (fun _ => true) 100 1 "X"
      { type := "ping", data := SignalData.empty }) = (stC7, [])
    ∧ (step stC7 (Event.wsMessage (fun _ => true) 100 1 "X"
        { type := "pong", data := SignalData.empty })).2 = [] := by
  constructor
  · exact C7_ping_ignored_pong_is_liveness.1 stC7 (fun _ => true) 100 1 "X" SignalData.empty
  · exact (C7_ping_ignored_pong_is_liveness.2 stC7 (fun _ => true) 100 1 "X"
      SignalData.empty roomC7 "a" cdC7 (by decide) (by decide) (by decide)
      (step stC7 (Event.wsMessage (fun _ => true) 100 1 "X"
        { type := "pong", data := SignalData.empty })).1
      (step stC7 (Event.wsMessage (fun _ => true) 100 1 "X"
        { type := "pong", data := SignalData.empty })).2 rfl).1

end Weblink

namespace Weblink

theorem handleLeave_found (isOpen : Nat → Bool) (rooms : List (String × Room))
    (roomId : String) (room : Room) (c : TransferClient) (ws : Nat) (cd : ClientData)
    (hcd : aget room.clients c.clientId = some cd) :
    handleLeave isOpen rooms roomId room c ws =
      (if (leaveFanout isOpen c (adel room.clients c.clientId)).1.isEmpty
        then adel rooms roomId
        else aset rooms roomId
          { room with clients := (leaveFanout isOpen c (adel room.clients c.clientId)).1 },
       (leaveFanout isOpen c (adel room.clients c.clientId)).2 ++ [Action.close ws]) := by
  simp [handleLeave, hcd]

/-- State for the C8 counterexample: the state reached right after the first
connection to fresh room X, before any join. -/
def stC8 : ServerState :=
  { rooms := [("X", { clients := [], passwordHash := none })], binding := [] }

/-- C8 counterexample: stC8 is reachable from process start in one step (the
open callback of the first connection creates the room before any join),
yet its room map contains X with an empty client map, so the claimed iff
fails at a reachable state. -/
theorem C8_counterexample :
    Reachable stC8
    ∧ aget stC8.rooms "X" = some { clients := [], passwordHash := none }
    ∧ ({ clients := [], passwordHash := none } : Room).clients = [] := by
  refine ⟨?_, by decide, rfl⟩
  have h := Reachable.next initState (Event.wsOpen 1 "X" "") Reachable.init
  have he : (step initState (Event.wsOpen 1 "X" "")).1 = stC8 := by decide
  rw [he] at h
  exact h

/-- C8 (amended): the iff fails only between a connection's open and its
first join, when a freshly created room sits with an empty client map (the
counterexample); the leave path does maintain it: when a leave evicts the
last record of a room, that room id is removed from the room map, and when
records remain the room stays mapped with a nonempty client registry. -/
theorem C8_leave_deletes_empty_room (st : ServerState) (isOpen : Nat → Bool)
    (now ws : Nat) (roomId : String) (c : TransferClient) (room : Room) (cd : ClientData)
    (hroom : aget st.rooms roomId = some room)
    (hcd : aget room.clients c.clientId = some cd) :
    ∀ st2 acts, step st (Event.wsMessage isOpen now ws roomId
        { type := "leave", data := SignalData.client c }) = (st2, acts) →
      (adel room.clients c.clientId = [] → aget st2.rooms roomId = none)
      ∧ (adel room.clients c.clientId ≠ [] →
          ∃ room2, aget st2.rooms roomId = some room2 ∧ room2.clients ≠ []) := by
  intro st2 acts heq
  rw [show step st (Event.wsMessage isOpen now ws roomId
        { type := "leave", data := SignalData.client c }) =
      stepSignal st isOpen now ws roomId
        { type := "leave", data := SignalData.client c } from rfl,
    stepSignal_leave st isOpen now ws roomId c room hroom,
    handleLeave_found isOpen st.rooms roomId room c ws cd hcd, Prod.mk.injEq] at heq
  obtain ⟨hst, hacts⟩ := heq
  subst hst
  subst hacts
  constructor
  · intro hemp
    have he : (leaveFanout isOpen c (adel room.clients c.clientId)).1.isEmpty = true := by
      rw [leaveFanout_fst_isEmpty, hemp]
      rfl
    show aget (if (leaveFanout isOpen c (adel room.clients c.clientId)).1.isEmpty
        then adel st.rooms roomId
        else aset st.rooms roomId _) roomId = none
    rw [if_pos he, aget_adel, if_pos rfl]
  · intro hne
    have he : (leaveFanout isOpen c (adel room.clients c.clientId)).1.isEmpty = false := by
      rw [leaveFanout_fst_isEmpty]
      cases hx : adel room.clients c.clientId with
      | nil => exact absurd hx hne
      | cons p rest => rfl
    refine ⟨{ room with clients := (leaveFanout isOpen c (adel room.clients c.clientId)).1 }, ?_, ?_⟩
    · show aget (if (leaveFanout isOpen c (adel room.clients c.clientId)).1.isEmpty
          then adel st.rooms roomId
          else aset st.rooms roomId _) roomId = _
      rw [if_neg (by rw [he]; exact Bool.false_ne_true), aget_aset, if_pos rfl]
    · show (leaveFanout isOpen c (adel room.clients c.clientId)).1 ≠ []
      intro hx
      rw [hx] at he
      exact Bool.noConfusion he

/-- Witness for the amended C8: concrete leave of the last member removes
room X from the map; concrete leave of one of two members keeps X mapped
nonempty. -/
theorem C8_leave_deletes_empty_room_witness :
    aget (step stC7 (Event.wsMessage (fun _ => true) 10 1 "X"
      { type := "leave", data := SignalData.client cdC7.client })).1.rooms "X" = none := by
  have h := C8_leave_deletes_empty_room stC7 (fun _ => true) 10 1 "X" cdC7.client
    roomC7 cdC7 (by decide) (by decide)
    (step stC7 (Event.wsMessage (fun _ => true) 10 1 "X"
      { type := "leave", data := SignalData.client cdC7.client })).1
    (step stC7 (Event.wsMessage (fun _ => true) 10 1 "X"
      { type := "leave", data := SignalData.client cdC7.client })).2 rfl
  exact h.1 (by decide)

end Weblink

namespace Weblink

/-- C9: an inbound leave signal evicts the record named by the signal's
data.clientId, not the record bound to the sending socket: for any state in
which the signal's clientId c has a record, the step deletes c's record
(possibly deleting the whole room when it empties), fans the leave envelope
carrying the signal's descriptor out to every remaining member — writing to
open sessions and appending to the messageCache of the others — closes the
sending socket, and disables c's grace timer (a later timer expiry for c is
a no-op).  No hypothesis relates the sending socket's bound clientId to c:
the conclusion holds whether or not they coincide. -/
theorem C9_leave_evicts_signal_clientId (st : ServerState) (isOpen : Nat → Bool)
    (now ws : Nat) (roomId : String) (c : TransferClient) (room : Room) (cd : ClientData)
    (hroom : aget st.rooms roomId = some room)
    (hcd : aget room.clients c.clientId = some cd) :
    ∀ st2 acts, step st (Event.wsMessage isOpen now ws roomId
        { type := "leave", data := SignalData.client c }) = (st2, acts) →
      (aget st2.rooms roomId = none ∨
        ∃ room2, aget st2.rooms roomId = some room2 ∧ aget room2.clients c.clientId = none)
      ∧ (∀ k cd2, k ≠ c.clientId → aget room.clients k = some cd2 →
          (isOpen cd2.session = true → Action.send cd2.session (Envelope.leave c) ∈ acts)
          ∧ (isOpen cd2.session = false → ∃ room2, aget st2.rooms roomId = some room2 ∧
              aget room2.clients k =
                some { cd2 with messageCache := cd2.messageCache ++ [Envelope.leave c] }))
      ∧ Action.close ws ∈ acts
      ∧ (∀ isOpen2 : Nat → Bool,
          step st2 (Event.timerFire isOpen2 roomId c.clientId) = (st2, [])) := by
  intro st2 acts heq
  rw [show step st (Event.wsMessage isOpen now ws roomId
        { type := "leave", data := SignalData.client c }) =
      stepSignal st isOpen now ws roomId
        { type := "leave", data := SignalData.client c } from rfl,
    stepSignal_leave st isOpen now ws roomId c room hroom,
    handleLeave_found isOpen st.rooms roomId room c ws cd hcd, Prod.mk.injEq] at heq
  obtain ⟨hst, hacts⟩ := heq
  subst hst
  subst hacts
  have hrooms2 : ∀ roomId2, aget ({ st with rooms :=
      (if (leaveFanout isOpen c (adel room.clients c.clientId)).1.isEmpty
        then adel st.rooms roomId
        else aset st.rooms roomId
          { room with clients := (leaveFanout isOpen c (adel room.clients c.clientId)).1 }) }
      : ServerState).rooms roomId2 =
      aget (if (leaveFanout isOpen c (adel room.clients c.clientId)).1.isEmpty
        then adel st.rooms roomId
        else aset st.rooms roomId
          { room with clients := (leaveFanout isOpen c (adel room.clients c.clientId)).1 })
        roomId2 := fun _ => rfl
  refine ⟨?_, ?_, ?_, ?_⟩
  · by_cases he : (leaveFanout isOpen c (adel room.clients c.clientId)).1.isEmpty
    · refine Or.inl ?_
      rw [hrooms2, if_pos he, aget_adel, if_pos rfl]
    · refine Or.inr ⟨{ room with clients :=
        (leaveFanout isOpen c (adel room.clients c.clientId)).1 }, ?_, ?_⟩
      · rw [hrooms2, if_neg he, aget_aset, if_pos rfl]
      · show aget (leaveFanout isOpen c (adel room.clients c.clientId)).1 c.clientId = none
        rw [leaveFanout_fst_aget, aget_adel, if_pos rfl]
        rfl
  · intro k cd2 hk hg
    have hrem : aget (adel room.clients c.clientId) k = some cd2 := by
      rw [aget_adel, if_neg (fun h => hk h.symm)]
      exact hg
    have hne : adel room.clients c.clientId ≠ [] := by
      intro hx
      rw [hx] at hrem
      exact Option.noConfusion hrem
    have he : (leaveFanout isOpen c (adel room.clients c.clientId)).1.isEmpty = false := by
      rw [leaveFanout_fst_isEmpty]
      cases hx : adel room.clients c.clientId with
      | nil => exact absurd hx hne
      | cons p rest => rfl
    constructor
    · intro ho
      exact List.mem_append_left _
        (leaveFanout_acts_mem isOpen c (aget_mem hrem) ho)
    · intro ho
      refine ⟨{ room with clients :=
        (leaveFanout isOpen c (adel room.clients c.clientId)).1 }, ?_, ?_⟩
      · rw [hrooms2, if_neg (by rw [he]; exact Bool.false_ne_true), aget_aset, if_pos rfl]
      · show aget (leaveFanout isOpen c (adel room.clients c.clientId)).1 k = _
        rw [leaveFanout_fst_aget, hrem]
        simp [ho]
  · exact List.mem_append_right _ (List.mem_singleton.mpr rfl)
  · intro isOpen2
    rw [show step _ (Event.timerFire isOpen2 roomId c.clientId) =
        stepTimer _ isOpen2 roomId c.clientId from rfl]
    by_cases he : (leaveFanout isOpen c (adel room.clients c.clientId)).1.isEmpty
    · apply stepTimer_noroom
      rw [hrooms2, if_pos he, aget_adel, if_pos rfl]
    · apply stepTimer_norecord _ isOpen2 roomId c.clientId
        { room with clients := (leaveFanout isOpen c (adel room.clients c.clientId)).1 }
      · rw [hrooms2, if_neg he, aget_aset, if_pos rfl]
      · show aget (leaveFanout isOpen c (adel room.clients c.clientId)).1 c.clientId = none
        rw [leaveFanout_fst_aget, aget_adel, if_pos rfl]
        rfl

/-- Descriptor carried by the C9 witness's leave signal, naming b. -/
def descB9 : TransferClient :=
  { clientId := "b", name := "B", avatar := none, createdAt := 2, resume := none }

/-- Room of the C9 witness: a on open session 1, b on open session 2, d on
closed session 4. -/
def roomC9 : Room :=
  { clients :=
      [("a", { client := { clientId := "a", name := "A", avatar := none, createdAt := 1, resume := none }
               session := 1, lastPongTime := 0, disconnectTimeout := none, messageCache := [] }),
       ("b", { client := descB9, session := 2, lastPongTime := 0
               disconnectTimeout := some (), messageCache := [] }),
       ("d", { client := { clientId := "d", name := "D", avatar := none, createdAt := 4, resume := none }
               session := 4, lastPongTime := 0, disconnectTimeout := none, messageCache := [] })]
    passwordHash := none }

/-- State of the C9 witness: the sending socket 1 is bound to a, not to b. -/
def stC9 : ServerState := { rooms := [("X", roomC9)], binding := [(1, "a")] }

/-- readyState for the C9 witness: session 4 closed, others open. -/
def isOpenC9 : Nat → Bool := fun s => s != 4

/-- Witness for C9: socket 1 (bound to a) sends leave for b; member a's open
session receives the leave envelope and the sending socket 1 is closed,
even though the sender's bound clientId differs from the evicted b. -/
theorem C9_leave_evicts_signal_clientId_witness :
    Action.send 1 (Envelope.leave descB9) ∈
      (step stC9 (Event.wsMessage isOpenC9 50 1 "X"
        { type := "leave", data := SignalData.client descB9 })).2
    ∧ Action.close 1 ∈
      (step stC9 (Event.wsMessage isOpenC9 50 1 "X"
        { type := "leave", data := SignalData.client descB9 })).2 := by
  have h := C9_leave_evicts_signal_clientId stC9 isOpenC9 50 1 "X" descB9 roomC9
    { client := descB9, session := 2, lastPongTime := 0
      disconnectTimeout := some (), messageCache := [] }
    (by decide) (by decide)
    (step stC9 (Event.wsMessage isOpenC9 50 1 "X"
      { type := "leave", data := SignalData.client descB9 })).1
    (step stC9 (Event.wsMessage isOpenC9 50 1 "X"
      { type := "leave", data := SignalData.client descB9 })).2 rfl
  refine ⟨?_, h.2.2.1⟩
  exact (h.2.1 "a"
    { client := { clientId := "a", name := "A", avatar := none, createdAt := 1, resume := none }
      session := 1, lastPongTime := 0, disconnectTimeout := none, messageCache := [] }
    (by decide) (by decide)).1 (by decide)

end Weblink
